import Mathlib

/-!
Verification of the lending health checker core.

Shallow embedding of the protocol-normalization and position-discovery
layer of the repository: the canonical data model (`Asset`,
`PositionData`), the validity filter `is_valid_position`, the threshold
resolver `get_threshold_for_position`, the alert evaluation loop of
`check_and_notify`, the 30-second result cache `get_cached_or_fetch`,
the per-protocol grouping and worst-first sort of `build_check_message`,
the `ProtocolManager` aggregation, and the Neverland and Curvance
strategy pipelines.

Conventions of the embedding:
* Python floats become rationals.  All raw on-chain integers are
  naturals; decimal scalings are exact rational divisions.
* Chain and indexer calls are oracles: the functions take the call
  results (or the resolution outcome of the Curvance manager probing)
  as explicit parameters.
* Python dicts with insertion order become association lists with
  first-match lookup and order-preserving insert.
* A raised-and-caught exception becomes an `Option`/`Except` value.
-/

/-- Asset dataclass from protocol_strategy.py (symbol, amount,
usd_value, decimals). -/
structure Asset where
  symbol : String
  amount : ℚ
  usd_value : ℚ
  decimals : ℕ
  deriving DecidableEq, Repr

/-- PositionData dataclass from protocol_strategy.py: the canonical
Position record produced by the strategies. -/
structure PositionData where
  protocol_name : String
  market_name : String
  market_id : String
  health_factor : ℚ
  collateral : Asset
  debt : Asset
  liquidation_price : Option ℚ
  liquidation_drop_pct : Option ℚ
  app_url : Option String
  deriving DecidableEq, Repr

/-- First-match lookup in an insertion-ordered association list
(models Python dict read access). -/
def lookupA {β : Type} : List (String × β) → String → Option β
  | [], _ => none
  | (k2, v) :: rest, k => if k2 = k then some v else lookupA rest k

/-- In-place update of an existing key in an association list
(models Python dict write to a present key, preserving order). -/
def updateA {β : Type} : List (String × β) → String → β → List (String × β)
  | [], _, _ => []
  | (k2, w) :: rest, k, v =>
    if k2 = k then (k2, v) :: rest else (k2, w) :: updateA rest k v

/-- Overwrite-or-append write (models Python dict assignment
d[k] = v, which keeps the original position of an existing key). -/
def insertA {β : Type} : List (String × β) → String → β → List (String × β)
  | [], k, v => [(k, v)]
  | (k2, w) :: rest, k, v =>
    if k2 = k then (k2, v) :: rest else (k2, w) :: insertA rest k v

/-- is_valid_position from lendinghealthchecker.py (lines 209-240):
drops a missing health factor, a sentinel health factor above 1e10,
and - only when a borrow amount is supplied - a zero borrow amount. -/
def is_valid_position (health_factor : Option ℚ) (borrow_amount : Option ℚ) : Bool :=
  match health_factor with
  | none => false
  | some hf =>
    if hf > 10 ^ 10 then false
    else
      match borrow_amount with
      | none => true
      | some b => if b = 0 then false else true

/-- Market-level entry of the per-address threshold configuration
(the dict stored under markets[market_id]; its threshold key may be
absent). -/
structure MarketEntry where
  threshold : Option ℚ
  deriving DecidableEq, Repr

/-- Protocol-level entry of the per-address threshold configuration. -/
structure ProtocolEntry where
  threshold : Option ℚ
  markets : List (String × MarketEntry)
  deriving DecidableEq, Repr

/-- Per-address threshold configuration (default_threshold plus
protocol overrides). -/
structure AddressEntry where
  default_threshold : Option ℚ
  protocols : List (String × ProtocolEntry)
  deriving DecidableEq, Repr

/-- Per-chat configuration: the addresses map of user_data[chat_id]. -/
structure ChatEntry where
  addresses : List (String × AddressEntry)
  deriving DecidableEq, Repr

/-- The empty address_data dict that .get(address, \x7b\x7d) yields when the
address is not configured. -/
def emptyAddressEntry : AddressEntry := ⟨none, []⟩

/-- Python truthiness filter applied by get_threshold_for_position to
the market- and protocol-level values: None and 0 are falsy. -/
def truthyQ (x : Option ℚ) : Option ℚ :=
  match x with
  | none => none
  | some t => if t = 0 then none else some t

/-- The market-level lookup chain
address_data.protocols[protocol_id].markets[market_id].threshold,
yielding None when any key is missing. -/
def addr_market_threshold (ad : AddressEntry) (protocol_id market_id : String) : Option ℚ :=
  match lookupA ad.protocols protocol_id with
  | none => none
  | some pe =>
    match lookupA pe.markets market_id with
    | none => none
    | some me => me.threshold

/-- The protocol-level lookup chain
address_data.protocols[protocol_id].threshold. -/
def addr_protocol_threshold (ad : AddressEntry) (protocol_id : String) : Option ℚ :=
  match lookupA ad.protocols protocol_id with
  | none => none
  | some pe => pe.threshold

/-- get_threshold_for_position from lendinghealthchecker.py (lines
242-273): market-specific, then protocol-specific, then the address
default, then the constant 1.5; the market- and protocol-level checks
use Python truthiness, and an empty-string market_id is falsy. -/
def get_threshold_for_position (user_data : List (String × ChatEntry))
    (chat_id address protocol_id : String) (market_id : Option String) : ℚ :=
  match lookupA user_data chat_id with
  | none => 3 / 2
  | some chat =>
    let address_data := (lookupA chat.addresses address).getD emptyAddressEntry
    let market_threshold : Option ℚ :=
      match market_id with
      | none => none
      | some m => if m = "" then none else addr_market_threshold address_data protocol_id m
    match truthyQ market_threshold with
    | some t => t
    | none =>
      match truthyQ (addr_protocol_threshold address_data protocol_id) with
      | some t => t
      | none => address_data.default_threshold.getD (3 / 2)

/-- One entry of the position dict list built by
discover_all_positions (protocol_id, market_id, health_factor,
threshold). -/
structure DiscoveredPosition where
  protocol_id : String
  market_id : Option String
  health_factor : ℚ
  threshold : ℚ
  deriving DecidableEq, Repr

/-- The alert loop of check_and_notify (lendinghealthchecker.py lines
1506-1519): a position enters the alert list exactly when
health_factor < threshold (strict). -/
def collect_alerts (positions : List DiscoveredPosition) : List DiscoveredPosition :=
  positions.filter (fun p => p.health_factor < p.threshold)

/-- The liquidation-drop computation of build_check_message
(lendinghealthchecker.py line 899):
(1 - 1/health_factor) * 100 if health_factor > 0 else 0. -/
def liquidation_drop_pct_of (health_factor : ℚ) : ℚ :=
  if health_factor > 0 then (1 - 1 / health_factor) * 100 else 0

/-- The liquidation-drop computation as the specification words it
(section 4.2): the value when health_factor > 0, null otherwise.
Spec-side definition, for comparison with the code. -/
def liquidation_drop_pct_spec (health_factor : ℚ) : Option ℚ :=
  if health_factor > 0 then some ((1 - 1 / health_factor) * 100) else none

/-- The CACHE_TTL constant (30 seconds). -/
def CACHE_TTL : ℚ := 30

/-- get_cached_or_fetch from lendinghealthchecker.py (lines 185-207),
with the cache dict passed explicitly and time() passed as now.
Returns the value, the new cache state, and whether fetch_func ran. -/
def get_cached_or_fetch {V : Type} (cache : List (String × V × ℚ)) (now : ℚ)
    (key : String) (fetch : Unit → V) : V × List (String × V × ℚ) × Bool :=
  match lookupA cache key with
  | some (v, ts) =>
    if now - ts < CACHE_TTL then (v, cache, false)
    else
      let v2 := fetch ()
      (v2, insertA cache key (v2, now), true)
  | none =>
    let v2 := fetch ()
    (v2, insertA cache key (v2, now), true)

/-- ProtocolManager.get_all_positions from protocol_strategy.py (lines
98-125), with each registered strategy represented by the outcome of
its get_positions call for the queried address: a list of positions,
or the exception it raised.  The filter check is Python truthiness
(if filter_protocol), so both None and the empty string mean no
filter and every strategy is queried; a truthy filter naming no
registered strategy yields an empty list (the code logs a warning and
returns []); a failing strategy contributes nothing. -/
def protocolManager_get_all_positions
    (strategies : List (String × Except String (List PositionData)))
    (filter_protocol : Option String) : List PositionData :=
  match filter_protocol with
  | some f =>
    if f = "" then
      strategies.foldl
        (fun acc s =>
          match s.2 with
          | Except.ok ps => acc ++ ps
          | Except.error _ => acc)
        []
    else
      match lookupA strategies f with
      | none => []
      | some (Except.ok ps) => ps
      | some (Except.error _) => []
  | none =>
    strategies.foldl
      (fun acc s =>
        match s.2 with
        | Except.ok ps => acc ++ ps
        | Except.error _ => acc)
      []

/-- check_neverland_health_factor from protocols.py (lines 614-636):
account_data[5] / 1e18, None when the chain call failed (or the tuple
is too short, which raises and is caught). -/
def check_neverland_health_factor (account_data : Option (List ℕ)) : Option ℚ :=
  match account_data with
  | none => none
  | some l =>
    match (l[5]? : Option ℕ) with
    | none => none
    | some raw => some ((raw : ℚ) / 10 ^ 18)

/-- get_neverland_account_data from protocols.py (lines 638-668):
(collateral_usd, debt_usd, health_factor) =
(account_data[0] / 1e8, account_data[1] / 1e8, account_data[5] / 1e18),
None when the call failed or an index is missing. -/
def get_neverland_account_data (account_data : Option (List ℕ)) : Option (ℚ × ℚ × ℚ) :=
  match account_data with
  | none => none
  | some l =>
    match (l[0]? : Option ℕ), (l[1]? : Option ℕ), (l[5]? : Option ℕ) with
    | some c, some d, some h =>
      some ((c : ℚ) / 10 ^ 8, (d : ℚ) / 10 ^ 8, (h : ℚ) / 10 ^ 18)
    | _, _, _ => none

/-- NeverlandStrategy.get_positions from protocol_strategies_impl.py
(lines 30-64).  The two getUserAccountData chain calls are passed as
oracles data1 (for the health factor) and data2 (for the account
data).  A falsy (None or 0) or sentinel (> 1e10) health factor yields
no position; otherwise one PositionData is emitted whose collateral
and debt assets carry amount 0 and the USD readings in usd_value. -/
def neverland_get_positions (app_url : String)
    (data1 data2 : Option (List ℕ)) : List PositionData :=
  match check_neverland_health_factor data1 with
  | none => []
  | some hf =>
    if hf = 0 ∨ hf > 10 ^ 10 then []
    else
      let acct := get_neverland_account_data data2
      let collateral_usd := match acct with | some a => a.1 | none => 0
      let debt_usd := match acct with | some a => a.2.1 | none => 0
      [⟨"Neverland", "Neverland", "neverland", hf,
        ⟨"USD", 0, collateral_usd, 18⟩,
        ⟨"USD", 0, debt_usd, 18⟩,
        none, none, some app_url⟩]

/-- One raw Curvance position tuple from getAllDynamicState:
(cToken, collateral, debt, health). -/
structure CurvanceRaw where
  cToken : String
  collateral_raw : ℕ
  debt_raw : ℕ
  health_raw_from_state : ℕ
  deriving DecidableEq, Repr

/-- One mm_positions group of CurvanceStrategy.get_positions: the
per-MarketManager accumulator (manager, aggregate health, collateral
token list, summed collateral, summed debt, debt symbol). -/
structure MMGroup where
  market_manager : String
  health_factor : ℚ
  collateral_tokens : List (String × ℚ)
  total_collateral : ℚ
  total_debt : ℚ
  debt_symbol : String
  deriving DecidableEq, Repr

/-- Order-preserving dedup of the collateral symbol list
(list(dict.fromkeys(...)) in the source). -/
def dedupeKeepOrder (l : List String) : List String :=
  l.foldl (fun acc s => if s ∈ acc then acc else acc ++ [s]) []

/-- The market-name formatting of CurvanceStrategy.get_positions
(lines 775-794): debt symbol, a pipe, and up to three deduplicated
collateral symbols, with an ellipsis beyond three. -/
def curvance_market_name (debt_symbol : String) (unique_symbols : List String) : String :=
  if debt_symbol ≠ "" ∧ debt_symbol ≠ "?" then
    if unique_symbols.length ≤ 3 then
      debt_symbol ++ " | " ++ String.intercalate ", " unique_symbols
    else
      debt_symbol ++ " | " ++ String.intercalate ", " (unique_symbols.take 3) ++ "..."
  else
    if unique_symbols.length ≤ 3 then
      String.intercalate ", " unique_symbols
    else
      String.intercalate ", " (unique_symbols.take 3) ++ "..."

/-- The PositionData emission for one mm_positions group
(CurvanceStrategy.get_positions lines 774-820): market_id is the
MarketManager, collateral.amount and debt.amount are the group
totals, usd_value duplicates the amount as a rough estimate. -/
def curvance_emit (app_url : String) (g : MMGroup) : PositionData :=
  let unique_symbols :=
    dedupeKeepOrder ((g.collateral_tokens.map (fun ct => ct.1)).filter (fun s => s ≠ "?"))
  ⟨"Curvance",
    curvance_market_name g.debt_symbol unique_symbols,
    g.market_manager,
    g.health_factor,
    ⟨unique_symbols.headD "?", g.total_collateral, g.total_collateral, 18⟩,
    ⟨g.debt_symbol, g.total_debt, g.total_debt, 18⟩,
    none, none, some app_url⟩

/-- The per-raw-position body of the CurvanceStrategy.get_positions
loop (lines 532-771), over a state of (mm_health_cache, mm_positions).
Oracles: resolve yields the (MarketManager, clean aggregate health)
pair that the probing phases (direct cToken probe, identification
search, fallback scan) find, or none when they all fail; decimalsOf
yields the collateral token decimals (18 on a failed call); collSym
and debtSym yield the collateral and debt symbols.  A raw position
with zero debt is skipped; a resolved health is overridden by the
cached aggregate health of its manager (first resolution wins); when
probing fails, the health from getAllDynamicState backs it up with
the first registered manager; a falsy or sentinel final health, or a
missing manager, drops the reading. -/
def curvanceStep (mms : List String) (resolve : CurvanceRaw → Option (String × ℚ))
    (decimalsOf : CurvanceRaw → ℕ) (collSym : CurvanceRaw → String → String)
    (debtSym : String → String)
    (st : List (String × ℚ) × List (String × MMGroup)) (raw : CurvanceRaw) :
    List (String × ℚ) × List (String × MMGroup) :=
  let cache := st.1
  let groups := st.2
  if raw.debt_raw = 0 then st
  else
    let probed := resolve raw
    let cacheStep : Option ℚ × List (String × ℚ) :=
      match probed with
      | some (mm, h) =>
        if h ≠ 0 then
          match lookupA cache mm.toLower with
          | some hc => (some hc, cache)
          | none => (some h, cache ++ [(mm.toLower, h)])
        else (some h, cache)
      | none => (none, cache)
    let hf1 := cacheStep.1
    let cache1 := cacheStep.2
    let mm1 : Option String := probed.map (fun p => p.1)
    let afterFallback : Option ℚ × Option String :=
      if (hf1 = none ∨ hf1 = some 0) ∧ 0 < raw.health_raw_from_state then
        let cand := (raw.health_raw_from_state : ℚ) / 10 ^ 18
        if cand ≤ 10 ^ 10 then (some cand, mms.head?) else (hf1, mm1)
      else (hf1, mm1)
    match afterFallback.1, afterFallback.2 with
    | some h, some mm =>
      if h = 0 ∨ h > 10 ^ 10 then (cache1, groups)
      else
        let collateral_amount := (raw.collateral_raw : ℚ) / 10 ^ decimalsOf raw
        let debt_amount := (raw.debt_raw : ℚ) / 10 ^ 18
        let key := mm.toLower
        match lookupA groups key with
        | none =>
          (cache1, groups ++
            [(key, ⟨mm, h, [(collSym raw mm, collateral_amount)],
              collateral_amount, debt_amount, debtSym mm⟩)])
        | some g =>
          (cache1, updateA groups key
            ⟨g.market_manager, g.health_factor,
              g.collateral_tokens ++ [(collSym raw mm, collateral_amount)],
              g.total_collateral + collateral_amount,
              g.total_debt + debt_amount,
              g.debt_symbol⟩)
    | _, _ => (cache1, groups)

/-- CurvanceStrategy.get_positions from protocol_strategies_impl.py
(lines 464-826): fold the per-raw loop over the raw positions of
getAllDynamicState, then emit one PositionData per mm_positions group
in insertion order. -/
def curvance_get_positions (mms : List String)
    (resolve : CurvanceRaw → Option (String × ℚ)) (decimalsOf : CurvanceRaw → ℕ)
    (collSym : CurvanceRaw → String → String) (debtSym : String → String)
    (app_url : String) (raws : List CurvanceRaw) : List PositionData :=
  let final := raws.foldl (curvanceStep mms resolve decimalsOf collSym debtSym) ([], [])
  final.2.map (fun g => curvance_emit app_url g.2)

/-- The worst-first comparison used by build_check_message
(lendinghealthchecker.py line 890): ascending health factor. -/
def hfLe (a b : DiscoveredPosition) : Prop := a.health_factor ≤ b.health_factor

instance : DecidableRel hfLe :=
  fun a b => inferInstanceAs (Decidable (a.health_factor ≤ b.health_factor))

instance : IsTotal DiscoveredPosition hfLe :=
  ⟨fun a b => le_total a.health_factor b.health_factor⟩

instance : IsTrans DiscoveredPosition hfLe :=
  ⟨fun _ _ _ hab hbc => le_trans hab hbc⟩

/-- Append a position to its protocol group, creating the group at the
end on first occurrence (models protocol_groups dict building in
build_check_message, lines 868-876). -/
def addToGroup (groups : List (String × List DiscoveredPosition))
    (k : String) (p : DiscoveredPosition) : List (String × List DiscoveredPosition) :=
  match groups with
  | [] => [(k, [p])]
  | (k2, l) :: rest =>
    if k2 = k then (k2, l ++ [p]) :: rest else (k2, l) :: addToGroup rest k p

/-- The protocol grouping of build_check_message: positions not
matching the filter are dropped, the rest are grouped by protocol_id
in first-occurrence order. -/
def group_positions (positions : List DiscoveredPosition)
    (filter_protocol : Option String) : List (String × List DiscoveredPosition) :=
  positions.foldl
    (fun acc p =>
      match filter_protocol with
      | some f => if p.protocol_id ≠ f then acc else addToGroup acc p.protocol_id p
      | none => addToGroup acc p.protocol_id p)
    []

/-- build_check_message rendering order (lendinghealthchecker.py lines
867-890): group by protocol, then sort each group ascending by health
factor with a stable sort (list.sort, modelled by insertion sort,
which is likewise stable). -/
def build_check_groups (positions : List DiscoveredPosition)
    (filter_protocol : Option String) : List (String × List DiscoveredPosition) :=
  (group_positions positions filter_protocol).map
    (fun g => (g.1, List.insertionSort hfLe g.2))

/-- Helper: the fold step of ProtocolManager.get_all_positions as a
named function (append the positions of a succeeding strategy, skip a
failing one). -/
def pmStep (acc : List PositionData) (s : String × Except String (List PositionData)) :
    List PositionData :=
  match s.2 with
  | Except.ok ps => acc ++ ps
  | Except.error _ => acc

theorem pmStep_eq_foldstep :
    ∀ (strategies : List (String × Except String (List PositionData))),
      protocolManager_get_all_positions strategies none = strategies.foldl pmStep [] := by
  intro strategies
  unfold protocolManager_get_all_positions
  congr 1

/-- Claim C4: the alert loop of check_and_notify emits an alert for a
position exactly when health_factor < threshold, strictly: equality
yields no alert, and a health factor of threshold - 0.0001 yields
one. -/
theorem C4_alert_strictness :
    ∀ (ps : List DiscoveredPosition) (p : DiscoveredPosition),
      (p ∈ collect_alerts ps ↔ p ∈ ps ∧ p.health_factor < p.threshold) ∧
      (p ∈ ps → p.health_factor = p.threshold → p ∉ collect_alerts ps) ∧
      (p ∈ ps → p.health_factor = p.threshold - 1 / 10000 → p ∈ collect_alerts ps) := by
  intro ps p
  have hmem : p ∈ collect_alerts ps ↔ p ∈ ps ∧ p.health_factor < p.threshold := by
    simp [collect_alerts, List.mem_filter]
  refine ⟨hmem, ?_, ?_⟩
  · intro _ heq hin
    have hlt := (hmem.mp hin).2
    rw [heq] at hlt
    exact lt_irrefl _ hlt
  · intro hin heq
    refine hmem.mpr ⟨hin, ?_⟩
    rw [heq]
    linarith

/-- Claim C4 witness: a position at exactly its threshold is not
alerted; one at threshold - 0.0001 is. -/
theorem C4_alert_strictness_witness :
    (⟨"neverland", none, 3 / 2, 3 / 2⟩ : DiscoveredPosition) ∉
      collect_alerts [⟨"neverland", none, 3 / 2, 3 / 2⟩] ∧
    (⟨"neverland", none, 3 / 2 - 1 / 10000, 3 / 2⟩ : DiscoveredPosition) ∈
      collect_alerts [⟨"neverland", none, 3 / 2 - 1 / 10000, 3 / 2⟩] :=
  ⟨(C4_alert_strictness [⟨"neverland", none, 3 / 2, 3 / 2⟩]
      ⟨"neverland", none, 3 / 2, 3 / 2⟩).2.1 (by simp) rfl,
   (C4_alert_strictness [⟨"neverland", none, 3 / 2 - 1 / 10000, 3 / 2⟩]
      ⟨"neverland", none, 3 / 2 - 1 / 10000, 3 / 2⟩).2.2 (by simp) rfl⟩

/-- Claim C7 counterexample: at health_factor = 0 the code of
build_check_message computes the value 0 for liquidation_drop_pct,
while the claim requires an absent (null) value, as the spec-worded
definition shows. -/
theorem C7_counterexample :
    liquidation_drop_pct_of 0 = 0 ∧ liquidation_drop_pct_spec 0 = none := by
  decide

/-- Claim C7 (amended): liquidation_drop_pct equals
(1 - 1/health_factor) * 100 when health_factor > 0 and is 0 (not
null) otherwise; at health_factor = 1.2 it is 50/3, within 0.1 of
16.7 percent. -/
theorem C7_liquidation_drop :
    ∀ hf : ℚ,
      (0 < hf → liquidation_drop_pct_of hf = (1 - 1 / hf) * 100) ∧
      (¬ 0 < hf → liquidation_drop_pct_of hf = 0) ∧
      liquidation_drop_pct_of (6 / 5) = 50 / 3 ∧
      |(50 : ℚ) / 3 - 167 / 10| < 1 / 10 := by
  intro hf
  refine ⟨?_, ?_, by norm_num [liquidation_drop_pct_of], ?_⟩
  · intro hpos
    simp [liquidation_drop_pct_of, hpos]
  · intro hneg
    simp [liquidation_drop_pct_of, hneg]
  · rw [abs_sub_lt_iff]
    constructor <;> norm_num

/-- Claim C7 witness: the formula branch at health_factor = 2 gives
50 percent, the non-positive branch at 0 gives 0. -/
theorem C7_liquidation_drop_witness :
    liquidation_drop_pct_of 2 = (1 - 1 / 2) * 100 ∧ liquidation_drop_pct_of 0 = 0 :=
  ⟨(C7_liquidation_drop 2).1 (by norm_num), (C7_liquidation_drop 0).2.1 (by norm_num)⟩

/-- Claim C5 counterexample: with a registered strategy holding a
position, a request filtered by an unknown protocol id returns the
plain empty list - the same value an empty manager returns for a
well-formed request - not an explicit rejection. -/
theorem C5_counterexample :
    protocolManager_get_all_positions
      [("morpho",
        Except.ok [⟨"Morpho", "WETH market", "0xm1", 2,
          ⟨"WETH", 1, 2500, 18⟩, ⟨"USDC", 1000, 1000, 6⟩, none, none, none⟩])]
      (some "euler") = [] ∧
    protocolManager_get_all_positions [] none = [] := by
  constructor
  · simp [protocolManager_get_all_positions, lookupA]
  · rfl

/-- Claim C5 (amended): when the filter is a truthy (non-empty)
protocol id with no registered strategy, get_all_positions logs a
warning and returns the empty list, indistinguishable from a result
with no positions; an empty-string filter is falsy under Python
truthiness and is treated as no filter at all, querying every
strategy. -/
theorem C5_unknown_protocol_empty :
    ∀ (strategies : List (String × Except String (List PositionData))) (f : String),
      f ≠ "" →
      lookupA strategies f = none →
      protocolManager_get_all_positions strategies (some f) = [] ∧
      protocolManager_get_all_positions strategies (some "") =
        protocolManager_get_all_positions strategies none := by
  intro strategies f hne h
  constructor
  · simp [protocolManager_get_all_positions, hne, h]
  · simp [protocolManager_get_all_positions]

/-- Claim C5 witness: the unknown-filter path and the empty-filter
path evaluated on a concrete one-strategy manager. -/
theorem C5_unknown_protocol_empty_witness :
    protocolManager_get_all_positions
        [("morpho",
          Except.ok [⟨"Morpho", "WETH market", "0xm1", 2,
            ⟨"WETH", 1, 2500, 18⟩, ⟨"USDC", 1000, 1000, 6⟩, none, none, none⟩])]
        (some "curvance") = [] ∧
      protocolManager_get_all_positions
        [("morpho",
          Except.ok [⟨"Morpho", "WETH market", "0xm1", 2,
            ⟨"WETH", 1, 2500, 18⟩, ⟨"USDC", 1000, 1000, 6⟩, none, none, none⟩])]
        (some "") =
      protocolManager_get_all_positions
        [("morpho",
          Except.ok [⟨"Morpho", "WETH market", "0xm1", 2,
            ⟨"WETH", 1, 2500, 18⟩, ⟨"USDC", 1000, 1000, 6⟩, none, none, none⟩])]
        none :=
  C5_unknown_protocol_empty _ "curvance" (by decide) (by simp [lookupA])

/-- Claim C3 counterexample: a configuration whose market-level
threshold is the configured value 0 is skipped by the Python
truthiness check, and the protocol-level value 2 is returned instead
of the configured market value. -/
theorem C3_counterexample :
    addr_market_threshold
        ⟨some 1, [("morpho", ⟨some 2, [("m1", ⟨some 0⟩)]⟩)]⟩ "morpho" "m1" = some 0 ∧
    get_threshold_for_position
        [("chat1", ⟨[("0xabc", ⟨some 1, [("morpho", ⟨some 2, [("m1", ⟨some 0⟩)]⟩)]⟩)]⟩)]
        "chat1" "0xabc" "morpho" (some "m1") = 2 := by
  constructor
  · simp [addr_market_threshold, lookupA]
  · simp [get_threshold_for_position, lookupA, addr_market_threshold,
      addr_protocol_threshold, truthyQ]

/-- Helper: get_threshold_for_position on a one-chat, one-address
configuration reduces to the three-level precedence chain over the
address entry. -/
theorem get_threshold_single (c a p : String) (ad : AddressEntry) (m : String)
    (hm : m ≠ "") :
    get_threshold_for_position [(c, ⟨[(a, ad)]⟩)] c a p (some m) =
      (match truthyQ (addr_market_threshold ad p m) with
       | some t => t
       | none =>
         match truthyQ (addr_protocol_threshold ad p) with
         | some t => t
         | none => ad.default_threshold.getD (3 / 2)) := by
  simp [get_threshold_for_position, lookupA, hm]

/-- Claim C3 (amended): resolution precedence is market-specific,
then protocol-specific, then address default, then 1.5 - where at the
market and protocol levels the first configured value wins only when
it is nonzero (a configured 0 is falsy under Python truthiness and is
skipped); the address default is used whenever present; an unknown
chat id resolves to 1.5; the resolver is total. -/
theorem C3_threshold_precedence :
    ∀ (c a p m : String) (ad : AddressEntry) (t : ℚ), m ≠ "" →
      (truthyQ (addr_market_threshold ad p m) = some t →
        get_threshold_for_position [(c, ⟨[(a, ad)]⟩)] c a p (some m) = t) ∧
      (truthyQ (addr_market_threshold ad p m) = none →
        truthyQ (addr_protocol_threshold ad p) = some t →
        get_threshold_for_position [(c, ⟨[(a, ad)]⟩)] c a p (some m) = t) ∧
      (truthyQ (addr_market_threshold ad p m) = none →
        truthyQ (addr_protocol_threshold ad p) = none →
        ad.default_threshold = some t →
        get_threshold_for_position [(c, ⟨[(a, ad)]⟩)] c a p (some m) = t) ∧
      (truthyQ (addr_market_threshold ad p m) = none →
        truthyQ (addr_protocol_threshold ad p) = none →
        ad.default_threshold = none →
        get_threshold_for_position [(c, ⟨[(a, ad)]⟩)] c a p (some m) = 3 / 2) ∧
      get_threshold_for_position [] c a p (some m) = 3 / 2 := by
  intro c a p m ad t hm
  have hred := get_threshold_single c a p ad m hm
  refine ⟨?_, ?_, ?_, ?_, ?_⟩
  · intro h1
    rw [hred, h1]
  · intro h1 h2
    rw [hred, h1, h2]
  · intro h1 h2 h3
    rw [hred, h1, h2, h3]
    rfl
  · intro h1 h2 h3
    rw [hred, h1, h2, h3]
    rfl
  · simp [get_threshold_for_position, lookupA]

/-- Claim C3 witness: a configured nonzero market-level threshold (2)
wins over the protocol-level (7/4) and default (1) values. -/
theorem C3_threshold_precedence_witness :
    get_threshold_for_position
      [("chat1", ⟨[("0xabc",
        ⟨some 1, [("morpho", ⟨some (7 / 4), [("m1", ⟨some 2⟩)]⟩)]⟩)]⟩)]
      "chat1" "0xabc" "morpho" (some "m1") = 2 :=
  (C3_threshold_precedence "chat1" "0xabc" "morpho" "m1"
      ⟨some 1, [("morpho", ⟨some (7 / 4), [("m1", ⟨some 2⟩)]⟩)]⟩ 2
      (by decide)).1
    (by norm_num [truthyQ, addr_market_threshold, lookupA])

/-- Claim C9: one failing strategy never drops the others - the
aggregation over a strategy list containing a raising strategy equals
the aggregation with that strategy removed, so all other adapters'
positions are returned. -/
theorem C9_partial_failure :
    ∀ (pre post : List (String × Except String (List PositionData))) (pid err : String),
      protocolManager_get_all_positions (pre ++ (pid, Except.error err) :: post) none =
        protocolManager_get_all_positions (pre ++ post) none := by
  intro pre post pid err
  rw [pmStep_eq_foldstep, pmStep_eq_foldstep]
  rw [List.foldl_append, List.foldl_append, List.foldl_cons]
  have hskip : pmStep (pre.foldl pmStep []) (pid, Except.error err) =
      pre.foldl pmStep [] := rfl
  rw [hskip]

/-- Helper: a dict write is immediately readable (lookup after
overwrite-or-append insert). -/
theorem lookupA_insertA {β : Type} :
    ∀ (c : List (String × β)) (k : String) (v : β),
      lookupA (insertA c k v) k = some v := by
  intro c k v
  induction c with
  | nil => simp [insertA, lookupA]
  | cons x xs ih =>
    obtain ⟨k2, w⟩ := x
    by_cases h : k2 = k
    · simp [insertA, lookupA, h]
    · simp [insertA, lookupA, h, ih]

/-- Claim C8: after a call that fetched and cached a value, a second
call for the same key strictly within CACHE_TTL = 30 seconds returns
the identical value, runs no fetch, and leaves the cache unchanged;
and once 30 seconds have elapsed the entry is expired purely by age
and the second call fetches again. -/
theorem C8_cache_idempotence :
    ∀ {V : Type} (cache : List (String × V × ℚ)) (now1 now2 : ℚ) (key : String)
      (f1 f2 : Unit → V),
      (get_cached_or_fetch cache now1 key f1).2.2 = true →
      (now2 - now1 < CACHE_TTL →
        get_cached_or_fetch (get_cached_or_fetch cache now1 key f1).2.1 now2 key f2 =
          ((get_cached_or_fetch cache now1 key f1).1,
            (get_cached_or_fetch cache now1 key f1).2.1, false)) ∧
      (CACHE_TTL ≤ now2 - now1 →
        (get_cached_or_fetch (get_cached_or_fetch cache now1 key f1).2.1 now2 key f2).2.2 =
          true) := by
  intro V cache now1 now2 key f1 f2 hfetch
  have hshape : get_cached_or_fetch cache now1 key f1 =
      (f1 (), insertA cache key (f1 (), now1), true) := by
    unfold get_cached_or_fetch at hfetch ⊢
    cases hl : lookupA cache key with
    | none => simp [hl]
    | some vt =>
      obtain ⟨v, ts⟩ := vt
      rw [hl] at hfetch
      by_cases hts : now1 - ts < CACHE_TTL
      · simp [hts] at hfetch
      · simp [hts]
  rw [hshape]
  constructor
  · intro hlt
    simp [get_cached_or_fetch, lookupA_insertA, hlt]
  · intro hge
    have hnl : ¬ (now2 - now1 < CACHE_TTL) := not_lt.mpr hge
    simp [get_cached_or_fetch, lookupA_insertA, hnl]

/-- Claim C8 witness: a fetch at time 0 followed by a hit at time 10
on a concrete empty cache. -/
theorem C8_cache_idempotence_witness :
    get_cached_or_fetch
        (get_cached_or_fetch ([] : List (String × ℕ × ℚ)) 0 "k" (fun _ => 7)).2.1
        10 "k" (fun _ => 9) =
      ((get_cached_or_fetch ([] : List (String × ℕ × ℚ)) 0 "k" (fun _ => 7)).1,
        (get_cached_or_fetch ([] : List (String × ℕ × ℚ)) 0 "k" (fun _ => 7)).2.1,
        false) :=
  (C8_cache_idempotence [] 0 10 "k" (fun _ => 7) (fun _ => 9) rfl).1
    (by norm_num [CACHE_TTL])

/-- Claim C10: when the fetch function returns None (a failed
health-factor check), that None value is written into the cache, and
every call with the same key strictly within the 30-second TTL
returns None without running its fetch function. -/
theorem C10_failure_cached :
    ∀ (cache : List (String × Option ℚ × ℚ)) (now1 now2 : ℚ) (key : String)
      (f2 : Unit → Option ℚ),
      lookupA cache key = none →
      now2 - now1 < CACHE_TTL →
      (get_cached_or_fetch cache now1 key (fun _ => none)).1 = none ∧
      lookupA (get_cached_or_fetch cache now1 key (fun _ => none)).2.1 key =
        some (none, now1) ∧
      get_cached_or_fetch (get_cached_or_fetch cache now1 key (fun _ => none)).2.1
          now2 key f2 =
        (none, (get_cached_or_fetch cache now1 key (fun _ => none)).2.1, false) := by
  intro cache now1 now2 key f2 hl hlt
  have hshape : get_cached_or_fetch cache now1 key (fun _ => (none : Option ℚ)) =
      (none, insertA cache key (none, now1), true) := by
    simp [get_cached_or_fetch, hl]
  rw [hshape]
  refine ⟨rfl, ?_, ?_⟩
  · exact lookupA_insertA cache key (none, now1)
  · simp [get_cached_or_fetch, lookupA_insertA, hlt]

/-- Claim C10 witness: a None fetched at time 5 is cached and
returned again at time 20 without fetching. -/
theorem C10_failure_cached_witness :
    (get_cached_or_fetch ([] : List (String × Option ℚ × ℚ)) 5 "neverland_0xabc"
        (fun _ => none)).1 = none ∧
    lookupA (get_cached_or_fetch ([] : List (String × Option ℚ × ℚ)) 5 "neverland_0xabc"
        (fun _ => none)).2.1 "neverland_0xabc" = some (none, 5) ∧
    get_cached_or_fetch
        (get_cached_or_fetch ([] : List (String × Option ℚ × ℚ)) 5 "neverland_0xabc"
          (fun _ => none)).2.1
        20 "neverland_0xabc" (fun _ => some 3) =
      (none,
        (get_cached_or_fetch ([] : List (String × Option ℚ × ℚ)) 5 "neverland_0xabc"
          (fun _ => none)).2.1,
        false) :=
  C10_failure_cached [] 5 20 "neverland_0xabc" (fun _ => some 3) rfl
    (by norm_num [CACHE_TTL])

/-- Claim C1 counterexample: is_valid_position accepts a zero health
factor, and the Neverland strategy, on an account with 1500 USD of
collateral, 1000 USD of debt and raw health factor 1.8e18, emits a
Position whose debt.amount is 0 (the debt exposure sits in
debt.usd_value), refuting debt.amount > 0 for discovery results. -/
theorem C1_counterexample :
    is_valid_position (some 0) (some 5) = true ∧
    (neverland_get_positions "https://app.neverland"
        (some [1500 * 10 ^ 8, 1000 * 10 ^ 8, 0, 0, 0, 18 * 10 ^ 17])
        (some [1500 * 10 ^ 8, 1000 * 10 ^ 8, 0, 0, 0, 18 * 10 ^ 17])).map
      (fun p => (p.health_factor, p.debt.amount, p.debt.usd_value)) =
      [(9 / 5, 0, 1000)] := by
  constructor
  · norm_num [is_valid_position]
  · norm_num [neverland_get_positions, check_neverland_health_factor,
      get_neverland_account_data]

/-- Claim C1 (amended): every Position emitted by the Neverland
strategy has 0 < health_factor ≤ 1e10 but carries its debt exposure
in debt.usd_value with debt.amount = 0; is_valid_position guarantees
health_factor ≤ 1e10 and a nonzero borrow only when a borrow amount
is supplied, and accepts a zero health factor. -/
theorem C1_position_invariants :
    (∀ (url : String) (d1 d2 : Option (List ℕ)),
      ∀ p ∈ neverland_get_positions url d1 d2,
        0 < p.health_factor ∧ p.health_factor ≤ 10 ^ 10 ∧ p.debt.amount = 0) ∧
    (∀ (hf b : ℚ), is_valid_position (some hf) (some b) = true →
      hf ≤ 10 ^ 10 ∧ b ≠ 0) ∧
    is_valid_position (some 0) none = true := by
  refine ⟨?_, ?_, by norm_num [is_valid_position]⟩
  · intro url d1 d2 p hp
    unfold neverland_get_positions at hp
    cases hd : check_neverland_health_factor d1 with
    | none =>
      rw [hd] at hp
      simp at hp
    | some hf =>
      rw [hd] at hp
      by_cases hcond : hf = 0 ∨ hf > 10 ^ 10
      · simp [hcond] at hp
      · simp [hcond] at hp
        push_neg at hcond
        obtain ⟨h0, hle⟩ := hcond
        have hnn : 0 ≤ hf := by
          unfold check_neverland_health_factor at hd
          cases d1 with
          | none => simp at hd
          | some l =>
            cases hg : l[5]? with
            | none => simp [hg] at hd
            | some raw =>
              simp [hg] at hd
              rw [← hd]
              positivity
        subst hp
        exact ⟨lt_of_le_of_ne hnn (Ne.symm h0), hle, rfl⟩
  · intro hf b h
    unfold is_valid_position at h
    by_cases hgt : hf > 10 ^ 10
    · simp [hgt] at h
    · by_cases hb : b = 0
      · simp [hgt, hb] at h
      · exact ⟨le_of_not_lt hgt, hb⟩

/-- Claim C1 witness: the invariants evaluated on a concrete
Neverland discovery with raw health factor 2e18 and on the filter at
health factor 2, borrow 5. -/
theorem C1_position_invariants_witness :
    (0 < (⟨"Neverland", "Neverland", "neverland", 2, ⟨"USD", 0, 0, 18⟩,
        ⟨"USD", 0, 0, 18⟩, none, none, some "u"⟩ : PositionData).health_factor ∧
      (⟨"Neverland", "Neverland", "neverland", 2, ⟨"USD", 0, 0, 18⟩,
        ⟨"USD", 0, 0, 18⟩, none, none, some "u"⟩ : PositionData).health_factor ≤ 10 ^ 10 ∧
      (⟨"Neverland", "Neverland", "neverland", 2, ⟨"USD", 0, 0, 18⟩,
        ⟨"USD", 0, 0, 18⟩, none, none, some "u"⟩ : PositionData).debt.amount = 0) ∧
    ((2 : ℚ) ≤ 10 ^ 10 ∧ (5 : ℚ) ≠ 0) :=
  ⟨C1_position_invariants.1 "u" (some [0, 0, 0, 0, 0, 2 * 10 ^ 18]) none
      ⟨"Neverland", "Neverland", "neverland", 2, ⟨"USD", 0, 0, 18⟩,
        ⟨"USD", 0, 0, 18⟩, none, none, some "u"⟩
      (by norm_num [neverland_get_positions, check_neverland_health_factor,
        get_neverland_account_data]),
    C1_position_invariants.2.1 2 5 (by norm_num [is_valid_position])⟩

/-- Claim C6: every protocol group rendered by build_check_message is
sorted ascending by health factor, and the concrete group with health
factors 2.1, 1.05, 1.8 comes out ordered 1.05, 1.8, 2.1. -/
theorem C6_worst_first :
    (∀ (ps : List DiscoveredPosition) (f : Option String),
      ∀ g ∈ build_check_groups ps f, List.Sorted hfLe g.2) ∧
    build_check_groups
      [⟨"morpho", some "a", 21 / 10, 3 / 2⟩, ⟨"morpho", some "b", 21 / 20, 3 / 2⟩,
        ⟨"morpho", some "c", 9 / 5, 3 / 2⟩] none =
      [("morpho",
        [⟨"morpho", some "b", 21 / 20, 3 / 2⟩, ⟨"morpho", some "c", 9 / 5, 3 / 2⟩,
          ⟨"morpho", some "a", 21 / 10, 3 / 2⟩])] := by
  constructor
  · intro ps f g hg
    unfold build_check_groups at hg
    simp only [List.mem_map] at hg
    obtain ⟨g0, _, rfl⟩ := hg
    exact List.sorted_insertionSort hfLe g0.2
  · norm_num [build_check_groups, group_positions, addToGroup, hfLe,
      List.insertionSort, List.orderedInsert]

/-- Claim C6 witness: the sortedness fact applied to the concrete
three-position group. -/
theorem C6_worst_first_witness :
    List.Sorted hfLe
      [⟨"morpho", some "b", 21 / 20, 3 / 2⟩, ⟨"morpho", some "c", 9 / 5, 3 / 2⟩,
        ⟨"morpho", some "a", 21 / 10, 3 / 2⟩] :=
  C6_worst_first.1
    [⟨"morpho", some "a", 21 / 10, 3 / 2⟩, ⟨"morpho", some "b", 21 / 20, 3 / 2⟩,
      ⟨"morpho", some "c", 9 / 5, 3 / 2⟩] none
    ("morpho",
      [⟨"morpho", some "b", 21 / 20, 3 / 2⟩, ⟨"morpho", some "c", 9 / 5, 3 / 2⟩,
        ⟨"morpho", some "a", 21 / 10, 3 / 2⟩])
    (by rw [C6_worst_first.2]; exact List.mem_singleton.mpr rfl)

/-- Helper: lookup in a singleton association list. -/
theorem lookupA_singleton {β : Type} (k : String) (v : β) :
    lookupA [(k, v)] k = some v := by
  simp [lookupA]

/-- Helper: update of a singleton association list. -/
theorem updateA_singleton {β : Type} (k : String) (v w : β) :
    updateA [(k, v)] k w = [(k, w)] := by
  simp [updateA]

/-- Helper: one Curvance loop iteration on a reading with nonzero
debt that resolves to the already-cached manager mm extends that
manager's group with the reading's amounts and changes nothing
else. -/
theorem curvanceStep_same (mms : List String)
    (resolve : CurvanceRaw → Option (String × ℚ)) (decimalsOf : CurvanceRaw → ℕ)
    (collSym : CurvanceRaw → String → String) (debtSym : String → String)
    (mm : String) (h : ℚ) (h0 : h ≠ 0) (hle : h ≤ 10 ^ 10) (r : CurvanceRaw)
    (hd : r.debt_raw ≠ 0) (hr : resolve r = some (mm, h))
    (cache : List (String × ℚ)) (g : MMGroup)
    (hc : lookupA cache mm.toLower = some h) :
    curvanceStep mms resolve decimalsOf collSym debtSym (cache, [(mm.toLower, g)]) r =
      (cache, [(mm.toLower,
        ⟨g.market_manager, g.health_factor,
          g.collateral_tokens ++
            [(collSym r mm, (r.collateral_raw : ℚ) / 10 ^ decimalsOf r)],
          g.total_collateral + (r.collateral_raw : ℚ) / 10 ^ decimalsOf r,
          g.total_debt + (r.debt_raw : ℚ) / 10 ^ 18,
          g.debt_symbol⟩)]) := by
  have hng : ¬ (h > 10 ^ 10) := not_lt.mpr hle
  simp [curvanceStep, hd, hr, h0, hng, hc, lookupA, updateA]

/-- Helper: folding the Curvance loop over readings that all resolve
to the cached manager mm keeps the cache and the single group, and
accumulates the collateral and debt sums in order. -/
theorem curvance_run_same (mms : List String)
    (resolve : CurvanceRaw → Option (String × ℚ)) (decimalsOf : CurvanceRaw → ℕ)
    (collSym : CurvanceRaw → String → String) (debtSym : String → String)
    (mm : String) (h : ℚ) (h0 : h ≠ 0) (hle : h ≤ 10 ^ 10) :
    ∀ (raws : List CurvanceRaw) (cache : List (String × ℚ)) (g : MMGroup),
      (∀ r ∈ raws, r.debt_raw ≠ 0 ∧ resolve r = some (mm, h)) →
      lookupA cache mm.toLower = some h →
      List.foldl (curvanceStep mms resolve decimalsOf collSym debtSym)
          (cache, [(mm.toLower, g)]) raws =
        (cache, [(mm.toLower,
          ⟨g.market_manager, g.health_factor,
            g.collateral_tokens ++
              raws.map (fun r => (collSym r mm, (r.collateral_raw : ℚ) / 10 ^ decimalsOf r)),
            g.total_collateral +
              (raws.map (fun r => (r.collateral_raw : ℚ) / 10 ^ decimalsOf r)).sum,
            g.total_debt + (raws.map (fun r => (r.debt_raw : ℚ) / 10 ^ 18)).sum,
            g.debt_symbol⟩)]) := by
  intro raws
  induction raws with
  | nil =>
    intro cache g hall hc
    simp
  | cons r rs ih =>
    intro cache g hall hc
    have hr := hall r (List.mem_cons_self r rs)
    rw [List.foldl_cons,
      curvanceStep_same mms resolve decimalsOf collSym debtSym mm h h0 hle r
        hr.1 hr.2 cache g hc,
      ih cache _ (fun x hx => hall x (List.mem_cons_of_mem r hx)) hc]
    simp [List.map_cons, List.sum_cons, List.append_assoc, add_assoc]

/-- Helper: the first Curvance loop iteration from the empty state,
on a reading with nonzero debt resolving to manager mm, creates the
cache entry and the group for mm. -/
theorem curvanceStep_first (mms : List String)
    (resolve : CurvanceRaw → Option (String × ℚ)) (decimalsOf : CurvanceRaw → ℕ)
    (collSym : CurvanceRaw → String → String) (debtSym : String → String)
    (mm : String) (h : ℚ) (h0 : h ≠ 0) (hle : h ≤ 10 ^ 10) (r : CurvanceRaw)
    (hd : r.debt_raw ≠ 0) (hr : resolve r = some (mm, h)) :
    curvanceStep mms resolve decimalsOf collSym debtSym ([], []) r =
      ([(mm.toLower, h)], [(mm.toLower,
        ⟨mm, h, [(collSym r mm, (r.collateral_raw : ℚ) / 10 ^ decimalsOf r)],
          (r.collateral_raw : ℚ) / 10 ^ decimalsOf r,
          (r.debt_raw : ℚ) / 10 ^ 18, debtSym mm⟩)]) := by
  have hng : ¬ (h > 10 ^ 10) := not_lt.mpr hle
  simp [curvanceStep, hd, hr, h0, hng, lookupA]

/-- Claim C2: when all raw Curvance readings have nonzero debt and
resolve to the same market manager with the same aggregate health,
get_positions emits exactly one Position for that manager - its
market_id is the manager, its health_factor the shared aggregate
health, its collateral.amount the sum of the individual collateral
amounts and its debt.amount the sum of the individual debt
amounts. -/
theorem C2_curvance_merging :
    ∀ (mms : List String) (resolve : CurvanceRaw → Option (String × ℚ))
      (decimalsOf : CurvanceRaw → ℕ) (collSym : CurvanceRaw → String → String)
      (debtSym : String → String) (app_url : String) (mm : String) (h : ℚ)
      (r0 : CurvanceRaw) (rest : List CurvanceRaw),
      0 < h → h ≤ 10 ^ 10 →
      (∀ r ∈ r0 :: rest, r.debt_raw ≠ 0 ∧ resolve r = some (mm, h)) →
      curvance_get_positions mms resolve decimalsOf collSym debtSym app_url (r0 :: rest) =
        [curvance_emit app_url
          ⟨mm, h,
            (r0 :: rest).map
              (fun r => (collSym r mm, (r.collateral_raw : ℚ) / 10 ^ decimalsOf r)),
            ((r0 :: rest).map
              (fun r => (r.collateral_raw : ℚ) / 10 ^ decimalsOf r)).sum,
            ((r0 :: rest).map (fun r => (r.debt_raw : ℚ) / 10 ^ 18)).sum,
            debtSym mm⟩] ∧
      (curvance_get_positions mms resolve decimalsOf collSym debtSym app_url
          (r0 :: rest)).map
        (fun p => (p.market_id, p.health_factor, p.collateral.amount, p.debt.amount)) =
        [(mm, h,
          ((r0 :: rest).map
            (fun r => (r.collateral_raw : ℚ) / 10 ^ decimalsOf r)).sum,
          ((r0 :: rest).map (fun r => (r.debt_raw : ℚ) / 10 ^ 18)).sum)] := by
  intro mms resolve decimalsOf collSym debtSym app_url mm h r0 rest hpos hle hall
  have h0 : h ≠ 0 := ne_of_gt hpos
  have hfirst := hall r0 (List.mem_cons_self r0 rest)
  have hmain : curvance_get_positions mms resolve decimalsOf collSym debtSym app_url
      (r0 :: rest) =
      [curvance_emit app_url
        ⟨mm, h,
          (r0 :: rest).map
            (fun r => (collSym r mm, (r.collateral_raw : ℚ) / 10 ^ decimalsOf r)),
          ((r0 :: rest).map
            (fun r => (r.collateral_raw : ℚ) / 10 ^ decimalsOf r)).sum,
          ((r0 :: rest).map (fun r => (r.debt_raw : ℚ) / 10 ^ 18)).sum,
          debtSym mm⟩] := by
    unfold curvance_get_positions
    rw [List.foldl_cons,
      curvanceStep_first mms resolve decimalsOf collSym debtSym mm h h0 hle r0
        hfirst.1 hfirst.2,
      curvance_run_same mms resolve decimalsOf collSym debtSym mm h h0 hle rest
        [(mm.toLower, h)] _ (fun x hx => hall x (List.mem_cons_of_mem r0 hx))
        (lookupA_singleton mm.toLower h)]
    simp [List.map_cons, List.sum_cons]
  refine ⟨hmain, ?_⟩
  rw [hmain]
  simp [curvance_emit]

/-- Claim C2 witness: two readings (collateral 2 and 3, debts 1 and
2, all scaled by 1e18) resolving to the one manager 0xMM1 with
aggregate health 1.2 merge into a single Position with collateral 5
and debt 3. -/
theorem C2_curvance_merging_witness :
    (curvance_get_positions ["0xMM1"] (fun _ => some ("0xMM1", 6 / 5)) (fun _ => 18)
        (fun r _ => r.cToken) (fun _ => "AUSD") "https://curvance.app"
        [⟨"WMON", 2 * 10 ^ 18, 10 ^ 18, 0⟩,
          ⟨"earnAUSD", 3 * 10 ^ 18, 2 * 10 ^ 18, 0⟩]).map
      (fun p => (p.market_id, p.health_factor, p.collateral.amount, p.debt.amount)) =
      [("0xMM1", 6 / 5, 5, 3)] := by
  have happ := C2_curvance_merging ["0xMM1"] (fun _ => some ("0xMM1", 6 / 5))
      (fun _ => 18) (fun r _ => r.cToken) (fun _ => "AUSD") "https://curvance.app"
      "0xMM1" (6 / 5) ⟨"WMON", 2 * 10 ^ 18, 10 ^ 18, 0⟩
      [⟨"earnAUSD", 3 * 10 ^ 18, 2 * 10 ^ 18, 0⟩]
      (by norm_num) (by norm_num)
      (by
        intro r hr
        simp only [List.mem_cons, List.not_mem_nil, or_false] at hr
        rcases hr with rfl | rfl
        · exact ⟨by norm_num, rfl⟩
        · exact ⟨by norm_num, rfl⟩)
  rw [happ.2]
  norm_num
